import Mathlib

/-!
Shallow embedding of the profile store and settings resolver of
`src/prefect/cli/profile.py`.

A Python `dict` is modelled as an association list with unique keys kept in
insertion order.  `dinsert` writes a key: an existing key is updated in place,
a new key is appended at the end (Python dict semantics).  `dpop` removes a
key.  `dget` looks a key up.  The CLI commands `get`, `set`, `unset`, `create`,
`rm`, `rename` and the override computation inside `inspect` are translated
into pure functions on these lists; `exit_with_error` becomes an `Except.error`
result (in the source an error exits before `write_profiles`, so an error
result means the persisted document is unchanged).
-/

namespace ProfileStore

/-- Settings of one profile: ordered mapping from setting key to value. -/
abbrev ProfileSettings := List (String × String)

/-- The whole document: ordered mapping from profile name to settings. -/
abbrev ProfileDocument := List (String × ProfileSettings)

/-- Error taxonomy of the operations (spec section 7), plus the raw Python
`KeyError` raised by `default_settings[key]` in `inspect`. -/
inductive Err where
  | notFound (what : String)
  | alreadyExists (what : String)
  | parseError (token : String)
  | keyError (key : String)
deriving Repr, DecidableEq

instance {ε α : Type} [DecidableEq ε] [DecidableEq α] : DecidableEq (Except ε α) :=
  fun x y =>
    match x, y with
    | .ok a, .ok b =>
        if h : a = b then .isTrue (by rw [h])
        else .isFalse (by intro hc; cases hc; exact h rfl)
    | .ok _, .error _ => .isFalse (by intro hc; cases hc)
    | .error _, .ok _ => .isFalse (by intro hc; cases hc)
    | .error e, .error f =>
        if h : e = f then .isTrue (by rw [h])
        else .isFalse (by intro hc; cases hc; exact h rfl)

/-- Look a key up in a dict (first occurrence). -/
def dget (k : String) : List (String × α) → Option α
  | [] => none
  | (k', v) :: rest => if k' = k then some v else dget k rest

/-- Python dict assignment `d[k] = v`: update in place if the key exists,
append at the end otherwise. -/
def dinsert (k : String) (v : α) : List (String × α) → List (String × α)
  | [] => [(k, v)]
  | (k', v') :: rest =>
      if k' = k then (k, v) :: rest else (k', v') :: dinsert k v rest

/-- Python dict `d.pop(k)`: drop the (first) entry with key `k`. -/
def dpop (k : String) : List (String × α) → List (String × α)
  | [] => []
  | (k', v') :: rest => if k' = k then rest else (k', v') :: dpop k rest

/-- `variable.split("=")` of Python, on character lists. -/
def splitEqAux : List Char → List Char → List (List Char)
  | [], acc => [acc.reverse]
  | c :: cs, acc =>
      if c = '=' then acc.reverse :: splitEqAux cs [] else splitEqAux cs (c :: acc)

/-- `variable.split("=")` of Python. -/
def splitEq (s : String) : List String :=
  (splitEqAux s.toList []).map fun cs => String.mk cs

/-- `var, value = variable.split("=")` — succeeds exactly when the token
splits on exactly one `=`. -/
def parseVariable (s : String) : Option (String × String) :=
  match splitEq s with
  | [var, value] => some (var, value)
  | _ => none

/-- The parsing loop of `set`: parse every token, failing on the first
malformed one before anything is applied. -/
def parseVariables : List String → Except Err (List (String × String))
  | [] => .ok []
  | v :: vs =>
      match parseVariable v with
      | none => .error (.parseError v)
      | some p =>
          match parseVariables vs with
          | .error e => .error e
          | .ok rest => .ok (p :: rest)

/-- The application loop of `set`: `env[var] = value` for each parsed pair. -/
def applyPairs (env : ProfileSettings) : List (String × String) → ProfileSettings
  | [] => env
  | (k, v) :: rest => applyPairs (dinsert k v env) rest

/-- `set` (spec: `set_values`): look the profile up, parse all tokens,
then apply all pairs. -/
def set_values (doc : ProfileDocument) (profileName : String)
    (tokens : List String) : Except Err ProfileDocument :=
  match dget profileName doc with
  | none => .error (.notFound profileName)
  | some env =>
      match parseVariables tokens with
      | .error e => .error e
      | .ok parsed => .ok (dinsert profileName (applyPairs env parsed) doc)

/-- The removal loop of `unset`: check each key against the current
(already partially mutated) settings, popping as it goes. -/
def removeKeys (env : ProfileSettings) : List String → Except Err ProfileSettings
  | [] => .ok env
  | k :: ks =>
      match dget k env with
      | none => .error (.notFound k)
      | some _ => removeKeys (dpop k env) ks

/-- `unset` (spec: `unset_values`). -/
def unset_values (doc : ProfileDocument) (profileName : String)
    (keys : List String) : Except Err ProfileDocument :=
  match dget profileName doc with
  | none => .error (.notFound profileName)
  | some env =>
      match removeKeys env keys with
      | .error e => .error e
      | .ok env' => .ok (dinsert profileName env' doc)

/-- `get`: the dict comprehension keeping the profiles whose name is in
`names`.  The source has no error path here: absent names are silently
ignored. -/
def get (doc : ProfileDocument) (names : List String) : ProfileDocument :=
  doc.filter fun p => decide (p.1 ∈ names)

/-- `create`.  `if from_name:` is Python truthiness, so an empty string
behaves like an absent `from_name`.  `profiles[name] = profiles[from_name]`
writes the settings value of `from_name` under `name`. -/
def create (doc : ProfileDocument) (name : String) (fromName : Option String) :
    Except Err ProfileDocument :=
  if (dget name doc).isSome then .error (.alreadyExists name)
  else
    match fromName with
    | some fn =>
        if fn = "" then .ok (dinsert name [] doc)
        else
          match dget fn doc with
          | none => .error (.notFound fn)
          | some settings => .ok (dinsert name settings doc)
    | none => .ok (dinsert name [] doc)

/-- `rm` (spec: `remove`): pop the profile; when it is `"default"`, reinsert
an empty `"default"` (which, the key being gone, appends at the end) and
report `"Reset"`, otherwise report `"Removed"`. -/
def remove (doc : ProfileDocument) (name : String) :
    Except Err (ProfileDocument × String) :=
  match dget name doc with
  | none => .error (.notFound name)
  | some _ =>
      let doc' := dpop name doc
      if name = "default" then .ok (dinsert "default" [] doc', "Reset")
      else .ok (doc', "Removed")

/-- `rename`: `profiles[new_name] = profiles.pop(name)`. -/
def rename (doc : ProfileDocument) (name newName : String) :
    Except Err ProfileDocument :=
  match dget name doc with
  | none => .error (.notFound name)
  | some settings =>
      if (dget newName doc).isSome then .error (.alreadyExists newName)
      else .ok (dinsert newName settings (dpop name doc))

/-- The dict comprehension of `inspect` collecting the entries whose value
differs from `default_settings[key]` — the subscript raises `KeyError`
(modelled as `Err.keyError`) when the key is absent from `defaults`. -/
def filterOverrides (defaults : ProfileSettings) :
    ProfileSettings → Except Err ProfileSettings
  | [] => .ok []
  | (k, v) :: rest =>
      match dget k defaults with
      | none => .error (.keyError k)
      | some d =>
          match filterOverrides defaults rest with
          | .error e => .error e
          | .ok tail => .ok (if v = d then tail else (k, v) :: tail)

/-- The override computation of `inspect` (spec: `compute_overrides`):
`env_overrides` first, then `current_overrides`, then per entry
`source = "env" if value == env_overrides.get(key) else "profile"`. -/
def compute_overrides (current env defaults : ProfileSettings) :
    Except Err (List (String × String × String)) :=
  match filterOverrides defaults env with
  | .error e => .error e
  | .ok envOverrides =>
      match filterOverrides defaults current with
      | .error e => .error e
      | .ok currentOverrides =>
          .ok (currentOverrides.map fun p =>
            (p.1, p.2, if dget p.1 envOverrides = some p.2 then "env" else "profile"))

/-! ### Dictionary lemmas -/

theorem dget_dinsert_self (k : String) (v : α) (l : List (String × α)) :
    dget k (dinsert k v l) = some v := by
  induction l with
  | nil => simp [dinsert, dget]
  | cons hd tl ih =>
      obtain ⟨k', v'⟩ := hd
      by_cases h : k' = k <;> simp [dinsert, dget, h, ih]

theorem dget_dinsert_of_ne (k j : String) (v : α) (l : List (String × α))
    (h : k ≠ j) : dget k (dinsert j v l) = dget k l := by
  induction l with
  | nil => simp [dinsert, dget, Ne.symm h]
  | cons hd tl ih =>
      obtain ⟨k', v'⟩ := hd
      by_cases hk : k' = j
      · subst hk
        simp [dinsert, dget, Ne.symm h]
      · by_cases hk2 : k' = k <;> simp [dinsert, dget, hk, hk2, ih, h, Ne.symm h]

theorem dget_dpop_of_ne (k j : String) (l : List (String × α)) (h : k ≠ j) :
    dget k (dpop j l) = dget k l := by
  induction l with
  | nil => simp [dpop]
  | cons hd tl ih =>
      obtain ⟨k', v'⟩ := hd
      by_cases hk : k' = j
      · subst hk
        simp [dpop, dget, Ne.symm h]
      · by_cases hk2 : k' = k <;> simp [dpop, dget, hk, hk2, ih, h, Ne.symm h]

theorem dget_eq_none_of_not_mem_keys (k : String) (l : List (String × α))
    (h : k ∉ l.map Prod.fst) : dget k l = none := by
  induction l with
  | nil => simp [dget]
  | cons hd tl ih =>
      obtain ⟨k', v'⟩ := hd
      simp only [List.map_cons, List.mem_cons] at h
      push_neg at h
      simp [dget, Ne.symm h.1, ih h.2]

theorem dget_dpop_self (k : String) (l : List (String × α))
    (hnd : (l.map Prod.fst).Nodup) : dget k (dpop k l) = none := by
  induction l with
  | nil => simp [dpop, dget]
  | cons hd tl ih =>
      obtain ⟨k', v'⟩ := hd
      simp only [List.map_cons, List.nodup_cons] at hnd
      by_cases hk : k' = k
      · subst hk
        simpa [dpop] using dget_eq_none_of_not_mem_keys k' tl hnd.1
      · simp [dpop, dget, hk, ih hnd.2]

/-! ### Helper lemmas about the operations -/

theorem parseVariables_first_bad (tokens : List String) (bad : String)
    (h : tokens.find? (fun t => (parseVariable t).isNone) = some bad) :
    parseVariables tokens = .error (.parseError bad) := by
  induction tokens with
  | nil => simp [List.find?] at h
  | cons v vs ih =>
      cases hv : parseVariable v with
      | none =>
          rw [List.find?_cons_of_pos _ (by simp [hv])] at h
          cases h
          simp [parseVariables, hv]
      | some q =>
          rw [List.find?_cons_of_neg _ (by simp [hv])] at h
          simp [parseVariables, hv, ih h]

theorem set_values_ok_shape (doc : ProfileDocument) (p : String)
    (tokens : List String) (doc2 : ProfileDocument)
    (h : set_values doc p tokens = .ok doc2) :
    ∃ env parsed, dget p doc = some env ∧ parseVariables tokens = .ok parsed ∧
      doc2 = dinsert p (applyPairs env parsed) doc := by
  cases henv : dget p doc with
  | none => simp [set_values, henv] at h
  | some env =>
      cases hparse : parseVariables tokens with
      | error e => simp [set_values, henv, hparse] at h
      | ok parsed =>
          refine ⟨env, parsed, rfl, rfl, ?_⟩
          simp [set_values, henv, hparse] at h
          exact h.symm

theorem find_pred_congr {α : Type} (l : List α) (f g : α → Bool)
    (h : ∀ x ∈ l, f x = g x) : l.find? f = l.find? g := by
  induction l with
  | nil => rfl
  | cons a as ih =>
      have ha := h a (by simp)
      have ih' := ih fun x hx => h x (by simp [hx])
      cases hga : g a <;> simp [List.find?, ha, hga, ih']

theorem removeKeys_first_missing (ks : List String) (env : ProfileSettings)
    (m : String) (hnd : ks.Nodup)
    (h : ks.find? (fun k => (dget k env).isNone) = some m) :
    removeKeys env ks = .error (.notFound m) := by
  induction ks generalizing env with
  | nil => simp [List.find?] at h
  | cons k ks ih =>
      cases hk : dget k env with
      | none =>
          rw [List.find?_cons_of_pos _ (by simp [hk])] at h
          cases h
          simp [removeKeys, hk]
      | some v =>
          rw [List.find?_cons_of_neg _ (by simp [hk])] at h
          have hnotmem : k ∉ ks := (List.nodup_cons.mp hnd).1
          have hcongr : ks.find? (fun j => (dget j env).isNone)
              = ks.find? (fun j => (dget j (dpop k env)).isNone) := by
            apply find_pred_congr
            intro x hx
            have hxk : x ≠ k := fun hc => hnotmem (hc ▸ hx)
            rw [dget_dpop_of_ne x k env hxk]
          rw [hcongr] at h
          simp [removeKeys, hk, ih (dpop k env) (List.nodup_cons.mp hnd).2 h]

/-! ### The claims -/

/-- C1: `create(doc, N, from_name=X)` makes profile `N` a value-independent
copy of `X`'s settings: `set_values` on profile `N` leaves `X`'s settings
unchanged in the resulting document, and `set_values` on profile `X` leaves
`N`'s settings unchanged.  (`X ≠ ""` because profile names are non-empty;
an empty `from_name` is falsy in the source and creates an empty profile.) -/
theorem create_from_name_independent (doc : ProfileDocument) (X N : String)
    (sX : ProfileSettings) (hX : dget X doc = some sX) (hN : dget N doc = none)
    (hX0 : X ≠ "") :
    ∃ doc', create doc N (some X) = .ok doc' ∧ dget N doc' = some sX ∧
      dget X doc' = some sX ∧
      (∀ tokens doc2, set_values doc' N tokens = .ok doc2 →
        dget X doc2 = some sX) ∧
      (∀ tokens doc2, set_values doc' X tokens = .ok doc2 →
        dget N doc2 = some sX) := by
  have hXN : X ≠ N := fun hc => by rw [hc, hN] at hX; cases hX
  refine ⟨dinsert N sX doc, ?_, dget_dinsert_self N sX doc, ?_, ?_, ?_⟩
  · simp [create, hN, hX0, hX]
  · rw [dget_dinsert_of_ne X N sX doc hXN]; exact hX
  · intro tokens doc2 h
    obtain ⟨env, parsed, henv, hparse, hdoc⟩ := set_values_ok_shape _ _ _ _ h
    subst hdoc
    rw [dget_dinsert_of_ne X N _ _ hXN, dget_dinsert_of_ne X N sX doc hXN]
    exact hX
  · intro tokens doc2 h
    obtain ⟨env, parsed, henv, hparse, hdoc⟩ := set_values_ok_shape _ _ _ _ h
    subst hdoc
    rw [dget_dinsert_of_ne N X _ _ (Ne.symm hXN)]
    exact dget_dinsert_self N sX doc

/-- Witness for C1 at `doc = [("x", [("A","1")])]`, `X = "x"`, `N = "n"`. -/
theorem create_from_name_independent_witness :
    ∃ doc', create [("x", [("A", "1")])] "n" (some "x") = .ok doc' ∧
      dget "n" doc' = some [("A", "1")] ∧ dget "x" doc' = some [("A", "1")] ∧
      (∀ tokens doc2, set_values doc' "n" tokens = .ok doc2 →
        dget "x" doc2 = some [("A", "1")]) ∧
      (∀ tokens doc2, set_values doc' "x" tokens = .ok doc2 →
        dget "n" doc2 = some [("A", "1")]) :=
  create_from_name_independent [("x", [("A", "1")])] "x" "n" [("A", "1")]
    (by decide) (by decide) (by decide)

/-- C4: when some token does not split on exactly one `=`, `set_values`
fails with a `ParseError` for such a token; the error result produces no
updated document, so nothing — including well-formed pairs before the bad
token — is applied or saved. -/
theorem set_values_parse_abort (doc : ProfileDocument) (p : String)
    (tokens : List String) (hp : (dget p doc).isSome)
    (hbad : ∃ t ∈ tokens, parseVariable t = none) :
    ∃ bad ∈ tokens, parseVariable bad = none ∧
      set_values doc p tokens = .error (.parseError bad) := by
  obtain ⟨env, henv⟩ := Option.isSome_iff_exists.mp hp
  have hs : (tokens.find? fun t => (parseVariable t).isNone).isSome := by
    rw [List.find?_isSome]
    obtain ⟨t, ht, hn⟩ := hbad
    exact ⟨t, ht, by simp [hn]⟩
  obtain ⟨bad, hfind⟩ := Option.isSome_iff_exists.mp hs
  have hbadnone : parseVariable bad = none := by
    have := List.find?_some hfind
    simpa using this
  exact ⟨bad, List.mem_of_find?_eq_some hfind, hbadnone,
    by simp [set_values, henv, parseVariables_first_bad tokens bad hfind]⟩

/-- Witness for C4: `["A=1", "BAD"]` on a document holding only an empty
`"default"` profile. -/
theorem set_values_parse_abort_witness :
    ∃ bad ∈ ["A=1", "BAD"], parseVariable bad = none ∧
      set_values [("default", [])] "default" ["A=1", "BAD"]
        = .error (.parseError bad) :=
  set_values_parse_abort [("default", [])] "default" ["A=1", "BAD"]
    (by decide) ⟨"BAD", by decide, by decide⟩

/-- C5 counterexample: on `doc = [("default", [("a","1")])]` with keys
`["a", "a", "b"]`, the only key absent from the profile's settings is `"b"`,
yet `unset_values` fails naming `"a"` (popped by the first request, then
found missing by the duplicate), not `"b"`. -/
theorem unset_values_first_missing_cex :
    unset_values [("default", [("a", "1")])] "default" ["a", "a", "b"]
        = .error (.notFound "a") ∧
      unset_values [("default", [("a", "1")])] "default" ["a", "a", "b"]
        ≠ .error (.notFound "b") := by decide

/-- C5 amended: for a duplicate-free key sequence, `unset_values` fails with
`NotFoundError` naming the first key (in sequence order) absent from the
profile's settings; the error result produces no updated document, so the
saved document is unchanged.  (With duplicate keys the source checks against
the partially mutated settings and can name an originally-present key.) -/
theorem unset_values_abort_first_missing (doc : ProfileDocument) (p : String)
    (keys : List String) (env : ProfileSettings) (m : String)
    (hp : dget p doc = some env) (hnd : keys.Nodup)
    (hfind : keys.find? (fun k => (dget k env).isNone) = some m) :
    unset_values doc p keys = .error (.notFound m) := by
  simp [unset_values, hp, removeKeys_first_missing keys env m hnd hfind]

/-- Witness for the amended C5: keys `["a", "b"]` against a profile holding
only `"a"` fail naming `"b"`. -/
theorem unset_values_abort_first_missing_witness :
    unset_values [("default", [("a", "1")])] "default" ["a", "b"]
      = .error (.notFound "b") :=
  unset_values_abort_first_missing [("default", [("a", "1")])] "default"
    ["a", "b"] [("a", "1")] "b" (by decide) (by decide) (by decide)

/-- C10: requesting the same present key twice makes `unset_values` fail
with `NotFoundError` naming that key — the second check runs against the
settings already mutated by the first removal. -/
theorem unset_values_duplicate_key (doc : ProfileDocument) (p k : String)
    (env : ProfileSettings) (hp : dget p doc = some env)
    (hnd : (env.map Prod.fst).Nodup) (hk : (dget k env).isSome) :
    unset_values doc p [k, k] = .error (.notFound k) := by
  obtain ⟨v, hv⟩ := Option.isSome_iff_exists.mp hk
  simp [unset_values, hp, removeKeys, hv, dget_dpop_self k env hnd]

/-- Witness for C10 at `doc = [("default", [("a","1")])]`, `k = "a"`. -/
theorem unset_values_duplicate_key_witness :
    unset_values [("default", [("a", "1")])] "default" ["a", "a"]
      = .error (.notFound "a") :=
  unset_values_duplicate_key [("default", [("a", "1")])] "default" "a"
    [("a", "1")] (by decide) (by decide) (by decide)

/-- C6: `remove` preserves the mandatory-default invariant: removing
`"default"` succeeds with verb `"Reset"` and the result still contains an
empty `"default"` profile; removing any other existing profile deletes it
with verb `"Removed"`; removing an absent name fails with `NotFoundError`. -/
theorem remove_spec (doc : ProfileDocument) (n : String)
    (hnd : (doc.map Prod.fst).Nodup) :
    (dget n doc = none → remove doc n = .error (.notFound n)) ∧
    ((dget "default" doc).isSome →
      ∃ doc', remove doc "default" = .ok (doc', "Reset") ∧
        dget "default" doc' = some []) ∧
    (n ≠ "default" → (dget n doc).isSome →
      ∃ doc', remove doc n = .ok (doc', "Removed") ∧ dget n doc' = none) := by
  refine ⟨?_, ?_, ?_⟩
  · intro h; simp [remove, h]
  · intro h
    obtain ⟨s, hs⟩ := Option.isSome_iff_exists.mp h
    exact ⟨dinsert "default" [] (dpop "default" doc), by simp [remove, hs],
      dget_dinsert_self _ _ _⟩
  · intro hne h
    obtain ⟨s, hs⟩ := Option.isSome_iff_exists.mp h
    exact ⟨dpop n doc, by simp [remove, hs, hne], dget_dpop_self n doc hnd⟩

/-- Witness for C6 at `doc = [("default", [("A","1")]), ("job", [])]`,
`n = "job"`. -/
theorem remove_spec_witness :
    (dget "job" [("default", [("A", "1")]), ("job", [])] = none →
      remove [("default", [("A", "1")]), ("job", [])] "job"
        = .error (.notFound "job")) ∧
    ((dget "default" [("default", [("A", "1")]), ("job", [])]).isSome →
      ∃ doc', remove [("default", [("A", "1")]), ("job", [])] "default"
          = .ok (doc', "Reset") ∧ dget "default" doc' = some []) ∧
    ("job" ≠ "default" →
      (dget "job" [("default", [("A", "1")]), ("job", [])]).isSome →
      ∃ doc', remove [("default", [("A", "1")]), ("job", [])] "job"
          = .ok (doc', "Removed") ∧ dget "job" doc' = none) :=
  remove_spec [("default", [("A", "1")]), ("job", [])] "job" (by decide)

/-- C8 counterexample: on `[("default", [("A","1")]), ("job", [])]`,
`remove doc "default"` does not keep `"default"` first: the result is not
the ordered document `[("default", []), ("job", [])]`. -/
theorem remove_default_keeps_position_cex :
    remove [("default", [("A", "1")]), ("job", [])] "default"
      ≠ .ok ([("default", []), ("job", [])], "Reset") := by decide

/-- C8 amended: the verb is `"Reset"` and the entries are `default ↦ {}` and
`job ↦ {}`, but the pop-then-reinsert moves `"default"` to the end of the
ordered mapping, after `"job"`. -/
theorem remove_default_moves_to_end :
    remove [("default", [("A", "1")]), ("job", [])] "default"
      = .ok ([("job", []), ("default", [])], "Reset") := by decide

/-- C9: `rename` fails with `NotFoundError` when `name` is absent, with
`AlreadyExistsError` when `new_name` exists, and otherwise moves the settings
unchanged to `new_name`, removing `name` entirely — also when `name` is
`"default"`, which then leaves no `"default"` entry. -/
theorem rename_spec (doc : ProfileDocument) (name newName : String)
    (hnd : (doc.map Prod.fst).Nodup) :
    (dget name doc = none → rename doc name newName = .error (.notFound name)) ∧
    ((dget name doc).isSome → (dget newName doc).isSome →
      rename doc name newName = .error (.alreadyExists newName)) ∧
    (∀ s, dget name doc = some s → dget newName doc = none →
      ∃ doc', rename doc name newName = .ok doc' ∧
        dget newName doc' = some s ∧ dget name doc' = none) := by
  refine ⟨?_, ?_, ?_⟩
  · intro h; simp [rename, h]
  · intro h1 h2
    obtain ⟨s, hs⟩ := Option.isSome_iff_exists.mp h1
    simp [rename, hs, h2]
  · intro s hs hnew
    have hne : name ≠ newName := fun hc => by rw [hc, hnew] at hs; cases hs
    refine ⟨dinsert newName s (dpop name doc), by simp [rename, hs, hnew],
      dget_dinsert_self _ _ _, ?_⟩
    rw [dget_dinsert_of_ne name newName s _ hne]
    exact dget_dpop_self name doc hnd

/-- Witness for C9: renaming `"default"` to `"job"` succeeds and leaves no
`"default"` entry. -/
theorem rename_spec_witness :
    (dget "default" [("default", [("A", "1")])] = none →
      rename [("default", [("A", "1")])] "default" "job"
        = .error (.notFound "default")) ∧
    ((dget "default" [("default", [("A", "1")])]).isSome →
      (dget "job" [("default", [("A", "1")])]).isSome →
      rename [("default", [("A", "1")])] "default" "job"
        = .error (.alreadyExists "job")) ∧
    (∀ s, dget "default" [("default", [("A", "1")])] = some s →
      dget "job" [("default", [("A", "1")])] = none →
      ∃ doc', rename [("default", [("A", "1")])] "default" "job" = .ok doc' ∧
        dget "job" doc' = some s ∧ dget "default" doc' = none) :=
  rename_spec [("default", [("A", "1")])] "default" "job" (by decide)

theorem filterOverrides_ok (defaults l : ProfileSettings)
    (h : ∀ p ∈ l, (dget p.1 defaults).isSome) :
    filterOverrides defaults l
      = .ok (l.filter fun p => !decide (dget p.1 defaults = some p.2)) := by
  induction l with
  | nil => simp [filterOverrides]
  | cons q rest ih =>
      obtain ⟨k, v⟩ := q
      obtain ⟨d, hd⟩ := Option.isSome_iff_exists.mp (h (k, v) (by simp))
      have ih' := ih fun p hp => h p (by simp [hp])
      by_cases hv : v = d
      · subst hv
        simp [filterOverrides, hd, ih', List.filter_cons]
      · simp [filterOverrides, hd, ih', List.filter_cons, hv, Ne.symm hv]

theorem filterOverrides_first_missing (defaults l : ProfileSettings)
    (p0 : String × String)
    (h : l.find? (fun q => (dget q.1 defaults).isNone) = some p0) :
    filterOverrides defaults l = .error (.keyError p0.1) := by
  induction l with
  | nil => simp [List.find?] at h
  | cons q rest ih =>
      obtain ⟨k, v⟩ := q
      cases hk : dget k defaults with
      | none =>
          rw [List.find?_cons_of_pos _ (by simp [hk])] at h
          cases h
          simp [filterOverrides, hk]
      | some d =>
          rw [List.find?_cons_of_neg _ (by simp [hk])] at h
          simp [filterOverrides, hk, ih h]

theorem dget_filter (l : ProfileSettings) (f : String × String → Bool)
    (k v : String) (hnd : (l.map Prod.fst).Nodup) :
    dget k (l.filter f) = some v ↔ dget k l = some v ∧ f (k, v) = true := by
  induction l with
  | nil => simp [dget]
  | cons q rest ih =>
      obtain ⟨k', v'⟩ := q
      simp only [List.map_cons, List.nodup_cons] at hnd
      have ih' := ih hnd.2
      by_cases hk : k' = k
      · subst hk
        have hrest : dget k' (rest.filter f) = none := by
          apply dget_eq_none_of_not_mem_keys
          intro hc
          obtain ⟨p, hp, hpk⟩ := List.mem_map.mp hc
          exact hnd.1 (List.mem_map.mpr ⟨p, List.mem_of_mem_filter hp, hpk⟩)
        cases hf : f (k', v') with
        | true =>
            rw [List.filter_cons, if_pos hf]
            simp only [dget, if_pos rfl]
            constructor
            · intro hv
              injection hv with hv'
              subst hv'
              exact ⟨rfl, hf⟩
            · exact fun hv => hv.1
        | false =>
            rw [List.filter_cons, if_neg (by simp [hf])]
            rw [hrest]
            simp only [dget, if_pos rfl]
            constructor
            · intro hv; cases hv
            · rintro ⟨hv, hfv⟩
              injection hv with hv'
              subst hv'
              rw [hf] at hfv
              cases hfv
      · have hdg : dget k ((k', v') :: rest) = dget k rest := by
          simp [dget, hk]
        cases hf : f (k', v') with
        | true =>
            rw [List.filter_cons, if_pos hf]
            rw [hdg]
            simp only [dget, if_neg hk]
            exact ih'
        | false =>
            rw [List.filter_cons, if_neg (by simp [hf])]
            rw [hdg]
            exact ih'

theorem map_attrib_eq_filterMap (defaults env l : ProfileSettings)
    (hc : ∀ p ∈ l, (dget p.1 defaults).isSome)
    (hne : (env.map Prod.fst).Nodup) :
    ((l.filter fun p => !decide (dget p.1 defaults = some p.2)).map fun p =>
        (p.1, p.2,
          if dget p.1 (env.filter fun q => !decide (dget q.1 defaults = some q.2))
              = some p.2 then "env" else "profile"))
      = l.filterMap fun p =>
          if dget p.1 defaults = some p.2 then none
          else some (p.1, p.2,
            if dget p.1 env = some p.2 then "env" else "profile") := by
  induction l with
  | nil => simp
  | cons q rest ih =>
      obtain ⟨k, v⟩ := q
      have ih' := ih fun p hp => hc p (by simp [hp])
      by_cases hkv : dget k defaults = some v
      · simp [List.filter_cons, List.filterMap_cons, hkv, ih']
      · have hiff : (dget k (env.filter fun q =>
              !decide (dget q.1 defaults = some q.2)) = some v)
            ↔ dget k env = some v := by
          rw [dget_filter env _ k v hne]
          exact ⟨fun h => h.1, fun h => ⟨h, by simp [hkv]⟩⟩
        have hif : (if dget k (env.filter fun q =>
                !decide (dget q.1 defaults = some q.2)) = some v
              then "env" else "profile")
            = if dget k env = some v then "env" else "profile" := by
          by_cases hA : dget k env = some v
          · rw [if_pos (hiff.mpr hA), if_pos hA]
          · rw [if_neg (fun hc2 => hA (hiff.mp hc2)), if_neg hA]
        simp only [List.filter_cons, List.filterMap_cons, hkv, if_false,
          List.map_cons]
        simp [hkv]
        exact ⟨hif, ih'⟩

/-- C2 counterexample: requesting `["default", "ghost"]` on a document that
has no `"ghost"` profile does not fail — `get` silently returns the
sub-document of the names that do exist. -/
theorem get_silently_filters_cex :
    get [("default", [])] ["default", "ghost"] = [("default", [])] := by decide

/-- C2 amended: `get` never fails (its result type has no error case, the
source comprehension just drops unknown names): requested existing names keep
their settings, and every other name is absent from the result. -/
theorem get_lookup (doc : ProfileDocument) (names : List String) (n : String) :
    dget n (get doc names) = if names.contains n then dget n doc else none := by
  induction doc with
  | nil => simp [get, dget]
  | cons hd tl ih =>
      obtain ⟨k, s⟩ := hd
      simp only [get] at ih
      by_cases hk : k = n
      · subst hk
        by_cases hc : k ∈ names <;>
          simp [get, List.filter_cons, hc, dget, ih]
      · by_cases hc : k ∈ names <;>
          simp [get, List.filter_cons, hc, dget, hk, ih]

/-- C3 counterexample: a key of `current` absent from `defaults` makes
`compute_overrides` fail (the Python subscript raises `KeyError`) instead of
treating the key as always different and emitting it. -/
theorem compute_overrides_raises_cex :
    compute_overrides [("K", "1")] [] [] = .error (.keyError "K") := by decide

/-- C3 amended: `compute_overrides` is not total on such inputs: when every
key of `env` is in `defaults` and some key of `current` is not, it aborts
with a key error naming the first such key of `current`, emitting nothing. -/
theorem compute_overrides_missing_default_aborts
    (current env defaults : ProfileSettings)
    (he : ∀ p ∈ env, (dget p.1 defaults).isSome) (p0 : String × String)
    (hfind : current.find? (fun q => (dget q.1 defaults).isNone) = some p0) :
    compute_overrides current env defaults = .error (.keyError p0.1) := by
  simp [compute_overrides, filterOverrides_ok defaults env he,
    filterOverrides_first_missing defaults current p0 hfind]

/-- Witness for the amended C3: `current` holds the known key `X` and the
unknown key `K`; the computation aborts naming `K`. -/
theorem compute_overrides_missing_default_aborts_witness :
    compute_overrides [("X", "1"), ("K", "1")] [("X", "2")] [("X", "0")]
      = .error (.keyError "K") :=
  compute_overrides_missing_default_aborts [("X", "1"), ("K", "1")]
    [("X", "2")] [("X", "0")] (by decide) ("K", "1") (by decide)

/-- C7: when every key of `current` and of `env` is a key of `defaults`
(as the settings registry guarantees) and `env` has no duplicate keys, the
result has exactly one entry per key of `current` whose value differs from
its default, in `current`'s order, with source `"env"` exactly when the key
appears in `env` with the same value as in `current`, else `"profile"`. -/
theorem compute_overrides_spec (current env defaults : ProfileSettings)
    (hc : ∀ p ∈ current, (dget p.1 defaults).isSome)
    (he : ∀ p ∈ env, (dget p.1 defaults).isSome)
    (hne : (env.map Prod.fst).Nodup) :
    compute_overrides current env defaults
      = .ok (current.filterMap fun p =>
          if dget p.1 defaults = some p.2 then none
          else some (p.1, p.2,
            if dget p.1 env = some p.2 then "env" else "profile")) := by
  have henv := filterOverrides_ok defaults env he
  have hcur := filterOverrides_ok defaults current hc
  simp only [compute_overrides, henv, hcur]
  exact congrArg Except.ok (map_attrib_eq_filterMap defaults env current hc hne)

/-- Witness for C7 on the spec's example: `X` equals its default and is
dropped; `Y` differs and matches the env value, so it is attributed
`"env"`. -/
theorem compute_overrides_spec_witness :
    compute_overrides [("X", "1"), ("Y", "9")] [("Y", "9")]
        [("X", "1"), ("Y", "2")]
      = .ok [("Y", "9", "env")] := by
  rw [compute_overrides_spec [("X", "1"), ("Y", "9")] [("Y", "9")]
    [("X", "1"), ("Y", "2")] (by decide) (by decide) (by decide)]
  rfl

end ProfileStore
